import Mathlib

/-!
Verification development for the Palworld live-map bot (`src/bot.js`).

The JavaScript source is shallowly embedded: numbers that the code only
adds, subtracts, multiplies and divides are modelled as rationals (`ℚ`);
JavaScript strings are Lean `String`s restricted to their ASCII use here,
with `localeCompare` modelled as code-point lexicographic comparison and
`toLowerCase` as `Char.toLower` (the ids involved are ASCII hex);
`x ?? d` becomes `Option.getD`; the in-place mutable records become
explicit state passing.  `Array.prototype.sort` is modelled by the stable
insertion sort `jsSortBy`, matching the ECMAScript stability guarantee
(a stable sort w.r.t. a total transitive order is unique).
-/

namespace Palmap

/-! ## Coordinate transform (bot.js lines 80-112) -/

/-- `WORLD_TO_MAP` calibration constants from bot.js. -/
def transl_x : ℚ := 123888

/-- `WORLD_TO_MAP.transl_y`. -/
def transl_y : ℚ := 158000

/-- `WORLD_TO_MAP.scale`. -/
def scale : ℚ := 459

/-- `MAP_TO_PX.A`. -/
def constA : ℚ := 2.5953628006591515

/-- `MAP_TO_PX.B`. -/
def constB : ℚ := 5073.702848050116

/-- `MAP_TO_PX.C`. -/
def constC : ℚ := -2.596070066847979

/-- `MAP_TO_PX.D`. -/
def constD : ℚ := 3233.9698454713814

/-- Intermediate map-space coordinate. -/
structure MapPoint where
  mapX : ℚ
  mapY : ℚ
  deriving DecidableEq, Repr

/-- Final pixel-space coordinate. -/
structure PixelPoint where
  px : ℚ
  py : ℚ
  deriving DecidableEq, Repr

/-- `worldToMap` from bot.js: translate by the fixed offsets, then swap and
divide by the scale. -/
def worldToMap (worldX worldY : ℚ) : MapPoint :=
  let newX := worldX + transl_x
  let newY := worldY - transl_y
  { mapX := newY / scale, mapY := newX / scale }

/-- `mapToPixel` from bot.js: independent per-axis linear map. -/
def mapToPixel (mapX mapY : ℚ) : PixelPoint :=
  { px := constA * mapX + constB, py := constC * mapY + constD }

/-- `worldToPixel` from bot.js: the composition of the two stages. -/
def worldToPixel (worldX worldY : ℚ) : PixelPoint :=
  let m := worldToMap worldX worldY
  mapToPixel m.mapX m.mapY

/-! ## Player-id normalization (bot.js lines 56-59) -/

/-- `normalizePalId` from bot.js: `String(id ?? "")`, remove every hyphen
(`replaceAll("-", "")`), then lower-case.  `toLowerCase` is modelled
character-wise by `Char.toLower` (the ids are ASCII). -/
def normalizePalId (id : Option String) : String :=
  String.mk ((((id.getD "").data.filter (fun c => c ≠ '-')).map Char.toLower))

/-- Two character lists related by `CaseHyphenEquiv` differ only in letter
case and in the presence of hyphen characters. -/
inductive CaseHyphenEquiv : List Char → List Char → Prop where
  | nil : CaseHyphenEquiv [] []
  | cons (c d : Char) (hc : c ≠ '-') (hd : d ≠ '-')
      (h : Char.toLower c = Char.toLower d) {l m : List Char}
      (t : CaseHyphenEquiv l m) : CaseHyphenEquiv (c :: l) (d :: m)
  | hyphenLeft {l m : List Char} (t : CaseHyphenEquiv l m) :
      CaseHyphenEquiv ('-' :: l) m
  | hyphenRight {l m : List Char} (t : CaseHyphenEquiv l m) :
      CaseHyphenEquiv l ('-' :: m)

/-! ## XML escaping (bot.js lines 261-286) -/

/-- One `replaceAll` pass with a single-character pattern, as used five
times in `escapeXml`. -/
def jsReplaceAllChar (pat : Char) (rep : List Char) : List Char → List Char
  | [] => []
  | c :: rest => (if c = pat then rep else [c]) ++ jsReplaceAllChar pat rep rest

/-- The apostrophe character, written via its code point. -/
def apos : Char := Char.ofNat 39

/-- The five sequential `replaceAll` passes of `escapeXml`, ampersand
first, on the character list. -/
def escapeChars (l : List Char) : List Char :=
  jsReplaceAllChar apos "&apos;".data
    (jsReplaceAllChar '"' "&quot;".data
      (jsReplaceAllChar '>' "&gt;".data
        (jsReplaceAllChar '<' "&lt;".data
          (jsReplaceAllChar '&' "&amp;".data l))))

/-- `escapeXml` from bot.js: five sequential `replaceAll` passes, ampersand
first. -/
def escapeXml (s : String) : String :=
  String.mk (escapeChars s.data)

/-- The intended single-pass character escape: each markup-significant
character maps to its entity, every other character to itself. -/
def xmlEscapeChar (c : Char) : List Char :=
  if c = '&' then "&amp;".data
  else if c = '<' then "&lt;".data
  else if c = '>' then "&gt;".data
  else if c = '"' then "&quot;".data
  else if c = apos then "&apos;".data
  else [c]

/-- `makeLabelSvgSmall`'s text payload: the label embeds `escapeXml text`
between the `>` of the `text` element and `</text>`. -/
def labelSvgTextPayload (text : String) : String :=
  escapeXml text

/-! ## JavaScript-modelling utilities -/

/-- JavaScript truthiness of a possibly-absent string: `undefined`, `null`
and the empty string are falsy. -/
def jsTruthyStr : Option String → Bool
  | none => false
  | some s => s ≠ ""

/-- JavaScript `a || b` on strings (`a` when truthy, else `b`). -/
def jsOrStr (a b : String) : String :=
  if a = "" then b else a

/-- JavaScript `String.prototype.toLowerCase`, modelled character-wise for
the ASCII strings this program handles. -/
def jsToLowerStr (s : String) : String :=
  String.mk (s.data.map Char.toLower)

/-- Lookup in a JavaScript string-keyed object or `Map`, modelled as an
association list in insertion order. -/
def jsObjGet (m : List (String × String)) (k : String) : Option String :=
  (m.find? (fun e => e.1 = k)).map (fun e => e.2)

/-- Assignment `obj[k] = v` on a string-keyed object or `Map`: an existing
key keeps its position, a new key is appended. -/
def jsObjSet (m : List (String × String)) (k : String) (v : String) :
    List (String × String) :=
  if (m.find? (fun e => e.1 = k)).isSome then
    m.map (fun e => if e.1 = k then (k, v) else e)
  else
    m ++ [(k, v)]

/-- `Math.round`: rounds half-way cases toward positive infinity. -/
def jsRound (q : ℚ) : ℤ :=
  Int.floor (q + 1 / 2)

/-- Code-point lexicographic comparison of character lists, the model of
`a.localeCompare(b) <= 0` for the ASCII strings this program sorts. -/
def charListLe : List Char → List Char → Bool
  | [], _ => true
  | _ :: _, [] => false
  | a :: as, b :: bs =>
    if a < b then true else if b < a then false else charListLe as bs

/-- `a.localeCompare(b) <= 0` on strings. -/
def strLe (a b : String) : Bool := charListLe a.data b.data

/-! ## Guild color assignment (bot.js lines 40-77) -/

/-- The fixed `GUILD_COLORS` palette from bot.js. -/
def GUILD_COLORS : List String :=
  ["#ff0000", "#3498DB", "#2ECC71", "#F1C40F", "#9B59B6", "#E67E22",
   "#ff21e1", "#95A5A6", "#00ffff", "#FF5722", "#8BC34A", "#5e6f9e",
   "#004953"]

/-- The persisted `state.palworld.guildColors` table: guild id to color
hex, in insertion order. -/
abbrev ColorTable := List (String × String)

/-- The color recorded for a guild, if any. -/
def lookupColor (table : ColorTable) (g : String) : Option String :=
  jsObjGet table g

/-- `pickColorForGuild` from bot.js.  The `Math.random()` draw of the
palette-exhausted fallback is modelled by the caller-supplied `rand`
(the code computes `GUILD_COLORS[Math.floor(Math.random() * len)]`,
always a valid index).  Returns the color together with the updated
table; `saveState` persistence is outside the model. -/
def pickColorForGuild (palGuildId : String) (table : ColorTable) (rand : ℕ) :
    String × ColorTable :=
  if jsTruthyStr (lookupColor table palGuildId) then
    ((lookupColor table palGuildId).getD "", table)
  else
    let used := table.map (fun e => e.2)
    let available := GUILD_COLORS.filter (fun c => ¬ used.contains c)
    let color :=
      match available with
      | [] => (GUILD_COLORS.get? (rand % GUILD_COLORS.length)).getD ""
      | c :: _ => c
    (color, jsObjSet table palGuildId color)

/-- Well-formedness of a color table reachable from this code: distinct
guild keys, distinct color values, every value drawn from the palette. -/
def WFColorTable (table : ColorTable) : Prop :=
  (table.map (fun e => e.1)).Nodup ∧
  (table.map (fun e => e.2)).Nodup ∧
  ∀ c ∈ table.map (fun e => e.2), c ∈ GUILD_COLORS

/-! ## Tinted icon cache (bot.js lines 124-149) -/

/-- The three possible `basePath` arguments of `getTintedIcon`: the two
`ASSETS` entries with a per-asset cache `Map`, or any other path. -/
inductive IconBase where
  | camp
  | player
  | other
  deriving DecidableEq, Repr

/-- One per-asset tint cache `Map`: lower-cased color hex to raster
bytes (bytes modelled as a list of naturals). -/
abbrev TintMap := List (String × List ℕ)

/-- Lookup in a tint cache `Map`. -/
def tintMapGet (m : TintMap) (k : String) : Option (List ℕ) :=
  (m.find? (fun e => e.1 = k)).map (fun e => e.2)

/-- `Map.prototype.set`: existing key keeps its position, new key is
appended. -/
def tintMapSet (m : TintMap) (k : String) (v : List ℕ) : TintMap :=
  if (m.find? (fun e => e.1 = k)).isSome then
    m.map (fun e => if e.1 = k then (k, v) else e)
  else
    m ++ [(k, v)]

/-- The module-level `tintedCache` with its `camp` and `player` maps. -/
structure TintedCache where
  camp : TintMap
  player : TintMap
  deriving DecidableEq

/-- The empty startup cache. -/
def emptyTintedCache : TintedCache :=
  { camp := [], player := [] }

/-- `getTintedIcon` from bot.js.  The sharp decode/resize/tint/encode
pipeline is the caller-supplied `compute` (it depends only on the base
asset, the size and the color).  The returned `Bool` records whether the
pipeline ran (`true`) or the call was answered from the cache (`false`). -/
def getTintedIcon (compute : IconBase → ℕ → String → List ℕ)
    (cache : TintedCache) (basePath : IconBase) (size : ℕ)
    (colorHex : String) : List ℕ × TintedCache × Bool :=
  let key := jsToLowerStr colorHex
  match basePath with
  | .camp =>
    match tintMapGet cache.camp key with
    | some buf => (buf, cache, false)
    | none =>
      let buf := compute basePath size colorHex
      (buf, { cache with camp := tintMapSet cache.camp key buf }, true)
  | .player =>
    match tintMapGet cache.player key with
    | some buf => (buf, cache, false)
    | none =>
      let buf := compute basePath size colorHex
      (buf, { cache with player := tintMapSet cache.player key buf }, true)
  | .other => (compute basePath size colorHex, cache, true)

/-! ## Telemetry data model (spec section 6, bot.js lines 209-258) -/

/-- One record of the player feed.  The accepted field aliases become
optional fields; `location_x`/`location_y` are JavaScript numbers,
modelled as rationals (absent or non-numeric becomes `none`). -/
structure PlayerJson where
  playerId : Option String
  player_id : Option String
  userId : Option String
  name : Option String
  nickname : Option String
  location_x : Option ℚ
  location_y : Option ℚ
  deriving DecidableEq, Repr

/-- One camp record of the guild feed.  A coordinate field of `map_pos`
is `some` exactly when present with a numeric value. -/
structure CampJson where
  id : Option String
  map_pos_x : Option ℚ
  map_pos_y : Option ℚ
  world_pos_x : Option ℚ
  world_pos_y : Option ℚ
  deriving DecidableEq, Repr

/-- One guild of the guild feed.  Per spec section 6 every guild exposes a
name, so `name` is not optional; `admin_id` models `g.admin?.id`. -/
structure GuildJson where
  name : String
  admin_id : Option String
  members : List String
  camp_count : Option ℕ
  camps : List CampJson
  deriving DecidableEq, Repr

/-- A normalized camp as produced by `extractCamps`. -/
structure Camp where
  guild_id : String
  guild : String
  camp_id : Option String
  map_x : Option ℚ
  map_y : Option ℚ
  world_x : Option ℚ
  world_y : Option ℚ
  deriving DecidableEq, Repr

/-- `extractCamps` from bot.js: flatten the guild-keyed object (entries in
insertion order) into one camp list, keeping `map_pos` coordinates only
when they are numbers. -/
def extractCamps (guildsJson : List (String × GuildJson)) : List Camp :=
  guildsJson.flatMap (fun g =>
    g.2.camps.map (fun c =>
      { guild_id := g.1, guild := g.2.name, camp_id := c.id,
        map_x := c.map_pos_x, map_y := c.map_pos_y,
        world_x := c.world_pos_x, world_y := c.world_pos_y }))

/-! ## Snapshot canonicalization and hash (bot.js lines 233-258) -/

/-- A canonicalized player tuple of `stableSnapshotForHash`. -/
structure HashPlayer where
  id : String
  name : String
  x : ℚ
  y : ℚ
  deriving DecidableEq, Repr

/-- A canonicalized camp tuple of `stableSnapshotForHash`. -/
structure HashCamp where
  id : String
  guild : String
  mx : ℚ
  my : ℚ
  deriving DecidableEq, Repr

/-- The player projection of `stableSnapshotForHash`:
`id = x.playerId ?? x.userId ?? x.name ?? ""`,
`name = x.name ?? x.nickname ?? ""`, coordinates coerced with `?? 0`. -/
def toHashPlayer (x : PlayerJson) : HashPlayer :=
  { id := (x.playerId <|> x.userId <|> x.name).getD "",
    name := (x.name <|> x.nickname).getD "",
    x := x.location_x.getD 0,
    y := x.location_y.getD 0 }

/-- The camp projection of `stableSnapshotForHash` (`guild` is always
present in this model, so `x.guild ?? ""` is just the field). -/
def toHashCamp (x : Camp) : HashCamp :=
  { id := x.camp_id.getD "", guild := x.guild,
    mx := x.map_x.getD 0, my := x.map_y.getD 0 }

/-- The sort key `(a.id || a.name)` of the player comparator. -/
def playerSortKey (p : HashPlayer) : String :=
  jsOrStr p.id p.name

/-- A stable insertion of `x` in front of the first element not strictly
before it. -/
def insertLe (le : α → α → Bool) (x : α) : List α → List α
  | [] => [x]
  | y :: rest => if le x y then x :: y :: rest else y :: insertLe le x rest

/-- `Array.prototype.sort` with a comparator whose non-positive result is
`le`: a stable sort, modelled by stable insertion sort (ECMAScript sorts
are required to be stable, and a stable sort w.r.t. a total transitive
`le` is unique). -/
def jsSortBy (le : α → α → Bool) : List α → List α
  | [] => []
  | x :: rest => insertLe le x (jsSortBy le rest)

/-- `stableSnapshotForHash` from bot.js: canonicalize both lists and sort
players by `(id || name)` and camps by `id` (the `localeCompare`
comparator is modelled as code-point string order). -/
def stableSnapshotForHash (players : List PlayerJson) (camps : List Camp) :
    List HashPlayer × List HashCamp :=
  (jsSortBy (fun a b => strLe (playerSortKey a) (playerSortKey b))
      (players.map toHashPlayer),
   jsSortBy (fun a b => strLe a.id b.id) (camps.map toHashCamp))

/-- `JSON.stringify` number rendering, faithful for the integral values
this development evaluates; a non-integral rational (whose JavaScript
shortest-round-trip decimal is outside this model) is rendered as
numerator, slash, denominator. -/
def jsNumToString (q : ℚ) : String :=
  if q.den = 1 then toString q.num
  else toString q.num ++ "/" ++ toString q.den

/-- `JSON.stringify` string escaping for the character range this program
feeds it (no control characters): quote and backslash get a backslash. -/
def jsonEscapeChar (c : Char) : List Char :=
  if c = '"' then ['\\', '"']
  else if c = '\\' then ['\\', '\\']
  else [c]

/-- A JSON string literal. -/
def jsonStr (s : String) : String :=
  "\"" ++ String.mk (s.data.flatMap jsonEscapeChar) ++ "\""

/-- `JSON.stringify` of one canonical player (object keys in insertion
order `id`, `name`, `x`, `y`). -/
def serializeHashPlayer (p : HashPlayer) : String :=
  "\x7b\"id\":" ++ jsonStr p.id ++ ",\"name\":" ++ jsonStr p.name ++
    ",\"x\":" ++ jsNumToString p.x ++ ",\"y\":" ++ jsNumToString p.y ++ "\x7d"

/-- `JSON.stringify` of one canonical camp. -/
def serializeHashCamp (c : HashCamp) : String :=
  "\x7b\"id\":" ++ jsonStr c.id ++ ",\"guild\":" ++ jsonStr c.guild ++
    ",\"mx\":" ++ jsNumToString c.mx ++ ",\"my\":" ++ jsNumToString c.my ++ "\x7d"

/-- `JSON.stringify` of the canonical snapshot object
(keys `players`, `camps`). -/
def serializeSnapshot (snap : List HashPlayer × List HashCamp) : String :=
  "\x7b\"players\":[" ++
    String.intercalate "," (snap.1.map serializeHashPlayer) ++
    "],\"camps\":[" ++
    String.intercalate "," (snap.2.map serializeHashCamp) ++ "]\x7d"

/-! ## SHA-256 (node:crypto `createHash("sha256")`), implemented from
FIPS 180-4 over byte lists; validated below against the standard test
vectors. -/

def w32 (n : ℕ) : ℕ := n % 4294967296

def rotr32 (n x : ℕ) : ℕ := w32 (x / 2 ^ n + x % 2 ^ n * 2 ^ (32 - n))

def shr32 (n x : ℕ) : ℕ := x / 2 ^ n

def sigmaSmall0 (x : ℕ) : ℕ := rotr32 7 x ^^^ rotr32 18 x ^^^ shr32 3 x

def sigmaSmall1 (x : ℕ) : ℕ := rotr32 17 x ^^^ rotr32 19 x ^^^ shr32 10 x

def sigmaBig0 (x : ℕ) : ℕ := rotr32 2 x ^^^ rotr32 13 x ^^^ rotr32 22 x

def sigmaBig1 (x : ℕ) : ℕ := rotr32 6 x ^^^ rotr32 11 x ^^^ rotr32 25 x

def chFn (x y z : ℕ) : ℕ := x.land y ^^^ (4294967295 - x).land z

def majFn (x y z : ℕ) : ℕ := x.land y ^^^ x.land z ^^^ y.land z

def sha256K : List ℕ :=
  [1116352408, 1899447441, 3049323471, 3921009573, 961987163,
   1508970993, 2453635748, 2870763221, 3624381080, 310598401,
   607225278, 1426881987, 1925078388, 2162078206, 2614888103,
   3248222580, 3835390401, 4022224774, 264347078, 604807628,
   770255983, 1249150122, 1555081692, 1996064986, 2554220882,
   2821834349, 2952996808, 3210313671, 3336571891, 3584528711,
   113926993, 338241895, 666307205, 773529912, 1294757372,
   1396182291, 1695183700, 1986661051, 2177026350, 2456956037,
   2730485921, 2820302411, 3259730800, 3345764771, 3516065817,
   3600352804, 4094571909, 275423344, 430227734, 506948616,
   659060556, 883997877, 958139571, 1322822218, 1537002063,
   1747873779, 1955562222, 2024104815, 2227730452, 2361852424,
   2428436474, 2756734187, 3204031479, 3329325298]

def sha256H0 : List ℕ :=
  [1779033703, 3144134277, 1013904242, 2773480762, 1359893119,
   2600822924, 528734635, 1541459225]

def extendSchedule : List ℕ → ℕ → List ℕ
  | w, 0 => w
  | w, k + 1 =>
    let n := w.length
    let next := w32 (sigmaSmall1 (w.getD (n - 2) 0) + w.getD (n - 7) 0 +
      sigmaSmall0 (w.getD (n - 15) 0) + w.getD (n - 16) 0)
    extendSchedule (w ++ [next]) k

def sha256Round (st : List ℕ) (kw : ℕ × ℕ) : List ℕ :=
  let a := st.getD 0 0
  let b := st.getD 1 0
  let c := st.getD 2 0
  let d := st.getD 3 0
  let e := st.getD 4 0
  let f := st.getD 5 0
  let g := st.getD 6 0
  let h := st.getD 7 0
  let t1 := w32 (h + sigmaBig1 e + chFn e f g + kw.1 + kw.2)
  let t2 := w32 (sigmaBig0 a + majFn a b c)
  [w32 (t1 + t2), a, b, c, w32 (d + t1), e, f, g]

def sha256Compress (h : List ℕ) (block : List ℕ) : List ℕ :=
  let w := extendSchedule block 48
  let st := (sha256K.zip w).foldl sha256Round h
  (h.zip st).map (fun p => w32 (p.1 + p.2))

def bytesToWords : List ℕ → List ℕ
  | b0 :: b1 :: b2 :: b3 :: rest =>
    (((b0 * 256 + b1) * 256 + b2) * 256 + b3) :: bytesToWords rest
  | _ => []

def toBlocks : List ℕ → List (List ℕ)
  | w0 :: w1 :: w2 :: w3 :: w4 :: w5 :: w6 :: w7 ::
    w8 :: w9 :: w10 :: w11 :: w12 :: w13 :: w14 :: w15 :: rest =>
    [w0, w1, w2, w3, w4, w5, w6, w7, w8, w9, w10, w11, w12, w13, w14, w15] ::
      toBlocks rest
  | _ => []

def sha256Pad (msg : List ℕ) : List ℕ :=
  let len := msg.length
  let bitLen := 8 * len
  let zeros := (64 - (len + 9) % 64) % 64
  msg ++ [128] ++ List.replicate zeros 0 ++
    [bitLen / 2 ^ 56 % 256, bitLen / 2 ^ 48 % 256, bitLen / 2 ^ 40 % 256,
     bitLen / 2 ^ 32 % 256, bitLen / 2 ^ 24 % 256, bitLen / 2 ^ 16 % 256,
     bitLen / 2 ^ 8 % 256, bitLen % 256]

def sha256Words (msg : List ℕ) : List ℕ :=
  (toBlocks (bytesToWords (sha256Pad msg))).foldl sha256Compress sha256H0

def hexDigitChar (n : ℕ) : Char :=
  if n < 10 then Char.ofNat (48 + n) else Char.ofNat (87 + n)

def word32Hex (x : ℕ) : List Char :=
  [hexDigitChar (x / 16 ^ 7 % 16), hexDigitChar (x / 16 ^ 6 % 16),
   hexDigitChar (x / 16 ^ 5 % 16), hexDigitChar (x / 16 ^ 4 % 16),
   hexDigitChar (x / 16 ^ 3 % 16), hexDigitChar (x / 16 ^ 2 % 16),
   hexDigitChar (x / 16 % 16), hexDigitChar (x % 16)]

def sha256hex (msg : List ℕ) : String :=
  String.mk ((sha256Words msg).flatMap word32Hex)

def strToBytes (s : String) : List ℕ :=
  s.data.map Char.toNat

/-- `sha256` from bot.js: hex digest of the UTF-8 bytes of
`JSON.stringify(obj)` (the strings involved are ASCII, where UTF-8
agrees with the code points). -/
def sha256 (snap : List HashPlayer × List HashCamp) : String :=
  sha256hex (strToBytes (serializeSnapshot snap))

/-- The snapshot fingerprint: `sha256(stableSnapshotForHash(players, camps))`. -/
def fingerprint (players : List PlayerJson) (camps : List Camp) : String :=
  sha256 (stableSnapshotForHash players camps)

/-! ## Snapshot renderer (bot.js lines 343-428).  The raster pipeline
(decode, resize, tint, JPEG encode) is outside the model: a composite is
recorded by its kind and its `left`/`top` placement, exactly the values
pushed onto the `composites` array. -/

/-- `OUTPUT_SIZE` from bot.js. -/
def OUTPUT_SIZE : ℚ := 4096

/-- `LEGEND_SCALE` from bot.js. -/
def LEGEND_SCALE : ℚ := 2.5

/-- `CAMP_SIZE` from `loadIconsOnce`. -/
def CAMP_SIZE : ℚ := 128

/-- `PLAYER_SIZE` from `loadIconsOnce`. -/
def PLAYER_SIZE : ℚ := 112

/-- The kind of one entry of the `composites` array. -/
inductive CompositeKind where
  | campIcon
  | playerIcon
  | playerLabel
  | legend
  deriving DecidableEq, Repr

/-- One entry of the `composites` array: its kind and placement. -/
structure Composite where
  kind : CompositeKind
  left : ℤ
  top : ℤ
  deriving DecidableEq, Repr

/-- The camp loop of `renderSnapshot`: a camp whose `map_x` or `map_y` is
not a number is skipped with `continue`; a valid camp is projected with
`mapToPixel`, scaled by `(sx, sy)` and composited centered.  The color
table and the `Math.random()` stream index are threaded through the
`pickColorForGuild` calls (`c.guild_id ?? "unknown"` is just the field:
`extractCamps` always sets it). -/
def renderCampComposites (sx sy : ℚ) (camps : List Camp) (table : ColorTable)
    (rands : ℕ → ℕ) (k : ℕ) : List Composite × ColorTable × ℕ :=
  match camps with
  | [] => ([], table, k)
  | c :: rest =>
    match c.map_x, c.map_y with
    | some mx, some my =>
      let pix := mapToPixel mx my
      let x := pix.px * sx
      let y := pix.py * sy
      let pc := pickColorForGuild c.guild_id table (rands k)
      let res := renderCampComposites sx sy rest pc.2 rands (k + 1)
      ({ kind := .campIcon, left := jsRound (x - CAMP_SIZE / 2),
         top := jsRound (y - CAMP_SIZE / 2) } :: res.1, res.2)
    | _, _ => renderCampComposites sx sy rest table rands k

/-- The player loop of `renderSnapshot`: coordinates are coerced with
`?? 0` and a player is skipped when both are falsy (`!wx && !wy`);
otherwise the world position is projected with `worldToPixel`, the icon is
composited bottom-center anchored and the label badge offset right.  The
guild is resolved through `playerToGuild` on the normalized id, falling
back to white when unresolved. -/
def renderPlayerComposites (sx sy : ℚ) (players : List PlayerJson)
    (playerToGuild : List (String × String)) (table : ColorTable)
    (rands : ℕ → ℕ) (k : ℕ) : List Composite × ColorTable × ℕ :=
  match players with
  | [] => ([], table, k)
  | p :: rest =>
    let wx := p.location_x.getD 0
    let wy := p.location_y.getD 0
    if wx = 0 ∧ wy = 0 then
      renderPlayerComposites sx sy rest playerToGuild table rands k
    else
      let pix := worldToPixel wx wy
      let x := pix.px * sx
      let y := pix.py * sy
      let pid := normalizePalId (p.playerId <|> p.player_id)
      let palGuildId := jsObjGet playerToGuild pid
      let pick : String × ColorTable × ℕ :=
        if jsTruthyStr palGuildId then
          let pc := pickColorForGuild (palGuildId.getD "") table (rands k)
          (pc.1, pc.2, k + 1)
        else ("#FFFFFF", table, k)
      let res := renderPlayerComposites sx sy rest playerToGuild pick.2.1
        rands pick.2.2
      ({ kind := .playerIcon, left := jsRound (x - PLAYER_SIZE / 2),
         top := jsRound (y - PLAYER_SIZE) } ::
       { kind := .playerLabel, left := jsRound (x + 12),
         top := jsRound (y - 56) } :: res.1, res.2)

/-- The scaled width and height of `makeLegendSvg` for `n` legend rows
(`w = 340`, `h = pad*2 + titleH + n*rowH`, both rounded after scaling). -/
def makeLegendSvgDims (n : ℕ) (sc : ℚ) : ℤ × ℤ :=
  (jsRound (340 * sc), jsRound ((14 * 2 + 24 + n * 28 : ℚ) * sc))

/-- The full `composites` array of `renderSnapshot`: camps, then players,
then (when `legendGuilds` is non-empty) the legend panel anchored to the
bottom-right corner. -/
def renderSnapshotComposites (srcW srcH : ℚ) (players : List PlayerJson)
    (camps : List Camp) (playerToGuild : List (String × String))
    (legendCount : ℕ) (table : ColorTable) (rands : ℕ → ℕ) :
    List Composite × ColorTable :=
  let sx := OUTPUT_SIZE / srcW
  let sy := OUTPUT_SIZE / srcH
  let campRes := renderCampComposites sx sy camps table rands 0
  let playerRes := renderPlayerComposites sx sy players playerToGuild
    campRes.2.1 rands campRes.2.2
  let legend :=
    if legendCount ≠ 0 then
      let dims := makeLegendSvgDims legendCount LEGEND_SCALE
      [{ kind := CompositeKind.legend, left := 4096 - dims.1 - 24,
         top := 4096 - dims.2 - 24 }]
    else []
  (campRes.1 ++ playerRes.1 ++ legend, playerRes.2.1)

/-! ## Legend construction (bot.js lines 509-539, `fetchSnapshotData`) -/

/-- One legend row: guild id, name, camp count and assigned color. -/
structure LegendRow where
  id : String
  name : String
  campCount : ℕ
  color : String
  deriving DecidableEq, Repr

/-- The sort order of the legend comparator
`(b.campCount - a.campCount) || a.name.localeCompare(b.name)`:
`a` precedes-or-ties `b` when the comparator is non-positive. -/
def legendLe (a b : LegendRow) : Bool :=
  decide (b.campCount < a.campCount) ||
    (decide (a.campCount = b.campCount) && decide (a.name ≤ b.name))

/-- The `.map` stage of the legend pipeline: one row per guild entry, in
feed order, with its persisted color assigned through
`pickColorForGuild`. -/
def buildLegendRows (guildsJson : List (String × GuildJson))
    (table : ColorTable) (rands : ℕ → ℕ) (k : ℕ) :
    List LegendRow × ColorTable × ℕ :=
  match guildsJson with
  | [] => ([], table, k)
  | g :: rest =>
    let pc := pickColorForGuild g.1 table (rands k)
    let res := buildLegendRows rest pc.2 rands (k + 1)
    ({ id := g.1, name := g.2.name, campCount := g.2.camp_count.getD 0,
       color := pc.1 } :: res.1, res.2)

/-- The `legendGuilds` value of `fetchSnapshotData`: map, filter to the
guilds with at least one camp, then sort by descending camp count with
ties broken by name. -/
def fetchLegendGuilds (guildsJson : List (String × GuildJson))
    (table : ColorTable) (rands : ℕ → ℕ) : List LegendRow × ColorTable :=
  let built := buildLegendRows guildsJson table rands 0
  (jsSortBy legendLe (built.1.filter (fun r => decide (0 < r.campCount))),
   built.2.1)

/-! ## Update orchestrator (bot.js lines 430-507, 541-568).  The Discord
interactions of one cycle are abstracted into a per-guild environment
summarizing whether each fetch succeeds; message sends/edits and renders
are recorded as observable flags of the outcome. -/

/-- One per-server binding `state.guilds[guildId]`. -/
structure GuildCfg where
  channelId : Option String
  messageId : Option String
  lastHash : Option String
  lastUpdatedAt : Option String
  deriving DecidableEq, Repr

/-- The Discord side of one `doUpdateForGuild` call: whether
`client.guilds.fetch` succeeds, whether `client.channels.fetch` yields a
GuildText channel, whether the recorded message can still be fetched, and
the id a freshly sent placeholder message would get. -/
structure DiscordEnv where
  guildOk : Bool
  channelOk : Bool
  msgFetchOk : Bool
  newMessageId : String

/-- What one `doUpdateForGuild` call did: the binding afterwards, whether
a placeholder message was sent, whether `renderSnapshot` ran, and whether
`msg.edit` ran. -/
structure UpdateOutcome where
  cfg : GuildCfg
  sentPlaceholder : Bool
  rendered : Bool
  edited : Bool
  deriving DecidableEq, Repr

/-- `ensureMessage` from bot.js: reuse the recorded message when it is
still fetchable, otherwise send a placeholder and record its id (the only
unconditional state mutation). -/
def ensureMessage (env : DiscordEnv) (cfg : GuildCfg) : GuildCfg × Bool :=
  if jsTruthyStr cfg.messageId ∧ env.msgFetchOk then (cfg, false)
  else ({ cfg with messageId := some env.newMessageId }, true)

/-- The binding after a successful render/edit:
`cfg.lastHash = data.hash; cfg.lastUpdatedAt = new Date().toISOString()`. -/
def withNewHash (cfg : GuildCfg) (dataHash now : String) : GuildCfg :=
  { cfg with lastHash := some dataHash, lastUpdatedAt := some now }

/-- `doUpdateForGuild` from bot.js: bail out silently when the guild or a
GuildText channel cannot be resolved; ensure the live message; skip
entirely (no render, no edit) when not forced and the recorded `lastHash`
is truthy and equals the snapshot hash; otherwise render, edit, and
record the new hash and timestamp (`now` models
`new Date().toISOString()`).  The render's color-table writes and
`saveState` persistence are outside this record. -/
def doUpdateForGuild (env : DiscordEnv) (cfg : GuildCfg) (dataHash : String)
    (force : Bool) (now : String) : UpdateOutcome :=
  if ¬ env.guildOk then ⟨cfg, false, false, false⟩
  else if ¬ env.channelOk then ⟨cfg, false, false, false⟩
  else
    let em := ensureMessage env cfg
    if ¬ force ∧ jsTruthyStr em.1.lastHash ∧ em.1.lastHash = some dataHash then
      ⟨em.1, em.2, false, false⟩
    else
      ⟨withNewHash em.1 dataHash now, em.2, true, true⟩

/-! ## Fetchers and the poll cycle (bot.js lines 182-207, 495-568) -/

/-- The environment of one cycle's upstream fetches: the configured
credentials/endpoints and the outcome each HTTP request would have
(`Except.error` models `!res.ok` and transport failures; the payload of a
success is the parsed JSON). -/
structure FetchEnv where
  adminPassword : Option String
  playersUrl : Option String
  paldefenderToken : Option String
  guildsUrl : Option String
  playersResult : Except String (List PlayerJson)
  guildsResult : Except String (List (String × GuildJson))

/-- `fetchPlayers` from bot.js: throw on a missing/empty `ADMIN_PASSWORD`
or `PLAYERS_URL`, then surface the request's outcome.  (The
`playersJson.players ?? playersJson ?? []` unwrapping of
`fetchSnapshotData` is folded into the successful payload.) -/
def fetchPlayers (env : FetchEnv) : Except String (List PlayerJson) :=
  if ¬ jsTruthyStr env.adminPassword then .error "Missing env ADMIN_PASSWORD"
  else if ¬ jsTruthyStr env.playersUrl then .error "Missing env PLAYERS_URL"
  else env.playersResult

/-- `fetchGuilds` from bot.js: throw on a missing/empty
`PALDEFENDER_TOKEN` or `GUILDS_URL`, then surface the request's
outcome. -/
def fetchGuilds (env : FetchEnv) : Except String (List (String × GuildJson)) :=
  if ¬ jsTruthyStr env.paldefenderToken then
    .error "Missing env PALDEFENDER_TOKEN"
  else if ¬ jsTruthyStr env.guildsUrl then .error "Missing env GUILDS_URL"
  else env.guildsResult

/-- `buildPlayerToGuildMap` from bot.js: normalized member ids (and the
admin's id when truthy) mapped to their guild id. -/
def buildPlayerToGuildMap (guildsJson : List (String × GuildJson)) :
    List (String × String) :=
  guildsJson.foldl
    (fun map g =>
      let map1 := g.2.members.foldl
        (fun m memberId => jsObjSet m (normalizePalId (some memberId)) g.1) map
      if jsTruthyStr g.2.admin_id then
        jsObjSet map1 (normalizePalId g.2.admin_id) g.1
      else map1)
    []

/-- The value `fetchSnapshotData` hands to the per-destination loop. -/
structure SnapshotData where
  players : List PlayerJson
  camps : List Camp
  playerToGuild : List (String × String)
  legendGuilds : List LegendRow
  hash : String
  deriving DecidableEq, Repr

/-- `fetchSnapshotData` from bot.js: fetch both feeds (either failure
aborts), extract camps, build the membership map and the legend (this
assigns persisted colors), and fingerprint the snapshot.  Returns the
data together with the updated color table. -/
def fetchSnapshotData (env : FetchEnv) (table : ColorTable)
    (rands : ℕ → ℕ) : Except String (SnapshotData × ColorTable) :=
  match fetchPlayers env with
  | .error e => .error e
  | .ok players =>
    match fetchGuilds env with
    | .error e => .error e
    | .ok guildsJson =>
      let legend := fetchLegendGuilds guildsJson table rands
      .ok ({ players := players, camps := extractCamps guildsJson,
             playerToGuild := buildPlayerToGuildMap guildsJson,
             legendGuilds := legend.1,
             hash := fingerprint players (extractCamps guildsJson) },
           legend.2)

/-- The whole bot state the cycle reads and writes: the per-server
bindings and the persisted color table. -/
structure BotState where
  guilds : List (String × GuildCfg)
  guildColors : ColorTable
  deriving DecidableEq, Repr

/-- What one `tick` call did. -/
structure TickResult where
  state : BotState
  outcomes : List (String × UpdateOutcome)
  loggedTickError : Bool
  deriving DecidableEq, Repr

/-- The per-destination loop of `tick`: skip bindings without a channel,
skip every other binding on a forced cycle, and run `doUpdateForGuild`
with `force` set exactly for the forced guild. -/
def tickLoop (discord : String → DiscordEnv)
    (entries : List (String × GuildCfg)) (hash : String)
    (forceGuildId : Option String) (now : String) :
    List (String × UpdateOutcome) :=
  match entries with
  | [] => []
  | e :: rest =>
    if ¬ jsTruthyStr e.2.channelId then
      tickLoop discord rest hash forceGuildId now
    else if forceGuildId.isSome ∧ forceGuildId ≠ some e.1 then
      tickLoop discord rest hash forceGuildId now
    else
      (e.1, doUpdateForGuild (discord e.1) e.2 hash (forceGuildId = some e.1)
        now) :: tickLoop discord rest hash forceGuildId now

/-- Write each outcome's binding back into the state's binding table. -/
def applyOutcomes (guilds : List (String × GuildCfg))
    (outcomes : List (String × UpdateOutcome)) : List (String × GuildCfg) :=
  guilds.map (fun e =>
    match outcomes.find? (fun o => o.1 = e.1) with
    | some o => (e.1, o.2.cfg)
    | none => e)

/-- `tick` from bot.js: drop the cycle when one is already running; do
nothing when no binding exists; fetch the snapshot once, and on any fetch
error log it and abort the cycle before any per-destination work;
otherwise fan the data out to every selected binding.  The function is
total: a fetch error is logged, never a crash. -/
def tick (env : FetchEnv) (discord : String → DiscordEnv) (state : BotState)
    (running : Bool) (rands : ℕ → ℕ) (forceGuildId : Option String)
    (now : String) : TickResult :=
  if running then ⟨state, [], false⟩
  else if state.guilds.isEmpty then ⟨state, [], false⟩
  else
    match fetchSnapshotData env state.guildColors rands with
    | .error _ => ⟨state, [], true⟩
    | .ok dt =>
      let outcomes := tickLoop discord state.guilds dt.1.hash forceGuildId now
      ⟨{ guilds := applyOutcomes state.guilds outcomes,
         guildColors := dt.2 }, outcomes, false⟩

/-! # Theorems -/

/-! ## C1: the composed coordinate transform -/

/-- C1: for every pair of coordinates, `worldToPixel` equals the
composition of the two affine stages,
`px = A * ((worldY - transl_y) / scale) + B` and
`py = C * ((worldX + transl_x) / scale) + D`, with the calibration
constants of bot.js; both stages are total functions (they are defined
for all rational inputs, with no error case). -/
theorem worldToPixel_eq_composed_affine_stages (wx wy : ℚ) :
    worldToPixel wx wy =
      { px := constA * ((wy - transl_y) / scale) + constB,
        py := constC * ((wx + transl_x) / scale) + constD } := rfl

/-! ## C7: player-id normalization -/

theorem caseHyphenEquiv_norm {l m : List Char} (h : CaseHyphenEquiv l m) :
    (l.filter (fun c => c ≠ '-')).map Char.toLower
      = (m.filter (fun c => c ≠ '-')).map Char.toLower := by
  induction h with
  | nil => rfl
  | cons c d hc hd h t ih =>
      rw [List.filter_cons, List.filter_cons, if_pos (by simpa using hc),
        if_pos (by simpa using hd)]
      simp only [List.map_cons, h, ih]
  | hyphenLeft t ih => simpa using ih
  | hyphenRight t ih => simpa using ih

/-- C7 (amended): normalization maps hyphen-delimited mixed-case ids and
compact lowercase ids of the same identity to one canonical key: any two
id strings that differ only in letter case and in hyphen characters
normalize identically.  (The unamended claim said any punctuation; the
code strips only hyphens, see the counterexample.) -/
theorem normalizePalId_case_hyphen_invariant (s t : String)
    (h : CaseHyphenEquiv s.data t.data) :
    normalizePalId (some s) = normalizePalId (some t) :=
  congrArg String.mk (caseHyphenEquiv_norm h)

/-- C7 witness: a hyphen-delimited mixed-case id and its compact
lowercase form share the canonical key. -/
theorem normalizePalId_case_hyphen_invariant_witness :
    normalizePalId (some "A-b") = normalizePalId (some "ab") :=
  normalizePalId_case_hyphen_invariant "A-b" "ab"
    (.cons 'A' 'a' (by decide) (by decide) (by decide)
      (.hyphenLeft (.cons 'b' 'b' (by decide) (by decide) rfl .nil)))

/-- C7 counterexample: the claim says normalization is punctuation
stripping, but two ids differing only in a dot get different canonical
keys — only hyphens are stripped. -/
theorem normalizePalId_not_punctuation_stripped :
    ¬ normalizePalId (some "a.b") = normalizePalId (some "ab") := by decide

/-! ## C10: XML escaping -/

theorem jsReplaceAllChar_append (pat : Char) (rep : List Char)
    (a b : List Char) :
    jsReplaceAllChar pat rep (a ++ b) =
      jsReplaceAllChar pat rep a ++ jsReplaceAllChar pat rep b := by
  induction a with
  | nil => rfl
  | cons c rest ih => simp [jsReplaceAllChar, ih]

theorem escapeChars_cons (c : Char) (l : List Char) :
    escapeChars (c :: l) = xmlEscapeChar c ++ escapeChars l := by
  by_cases h1 : c = '&'
  · subst h1
    simp [escapeChars, xmlEscapeChar, jsReplaceAllChar, jsReplaceAllChar_append,
      apos]
  · by_cases h2 : c = '<'
    · subst h2
      simp [escapeChars, xmlEscapeChar, jsReplaceAllChar,
        jsReplaceAllChar_append, apos]
    · by_cases h3 : c = '>'
      · subst h3
        simp [escapeChars, xmlEscapeChar, jsReplaceAllChar,
          jsReplaceAllChar_append, apos]
      · by_cases h4 : c = '"'
        · subst h4
          simp [escapeChars, xmlEscapeChar, jsReplaceAllChar,
            jsReplaceAllChar_append, apos]
        · by_cases h5 : c = apos
          · subst h5
            simp [escapeChars, xmlEscapeChar, jsReplaceAllChar,
              jsReplaceAllChar_append, apos]
          · simp [escapeChars, xmlEscapeChar, jsReplaceAllChar,
              jsReplaceAllChar_append, h1, h2, h3, h4, h5]

theorem escapeChars_eq_flatMap (l : List Char) :
    escapeChars l = l.flatMap xmlEscapeChar := by
  induction l with
  | nil => rfl
  | cons c rest ih => rw [escapeChars_cons, ih]; rfl

theorem xmlEscapeChar_no_raw (c : Char) :
    ∀ d ∈ xmlEscapeChar c, d ≠ '<' ∧ d ≠ '>' ∧ d ≠ '"' ∧ d ≠ apos := by
  unfold xmlEscapeChar
  by_cases h1 : c = '&'
  · subst h1; decide
  · by_cases h2 : c = '<'
    · subst h2; decide
    · by_cases h3 : c = '>'
      · subst h3; decide
      · by_cases h4 : c = '"'
        · subst h4; decide
        · by_cases h5 : c = apos
          · subst h5; decide
          · simp [h1, h2, h3, h4, h5]

/-- C10: `escapeXml` (used on player label text and legend guild names)
replaces every occurrence of the five markup-significant characters by
its entity — it equals the intended single-pass per-character escape —
and its output contains no raw `<`, `>`, double-quote or apostrophe
character, so arbitrary names are embedded in the generated SVG as
character data only. -/
theorem escapeXml_escapes_markup (s : String) :
    escapeXml s = String.mk (s.data.flatMap xmlEscapeChar) ∧
    ∀ c ∈ (escapeXml s).data, c ≠ '<' ∧ c ≠ '>' ∧ c ≠ '"' ∧ c ≠ apos := by
  constructor
  · exact congrArg String.mk (escapeChars_eq_flatMap s.data)
  · intro c hc
    have : c ∈ s.data.flatMap xmlEscapeChar := by
      simpa [escapeXml, escapeChars_eq_flatMap] using hc
    obtain ⟨a, _, ha⟩ := List.mem_flatMap.mp this
    exact xmlEscapeChar_no_raw a c ha

/-- C10 witness: the characterization evaluated on a concrete label. -/
theorem escapeXml_escapes_markup_witness :
    escapeXml "a<b" = String.mk ("a<b".data.flatMap xmlEscapeChar) ∧
    ('&' ≠ '<' ∧ '&' ≠ '>' ∧ '&' ≠ '"' ∧ '&' ≠ apos) :=
  ⟨(escapeXml_escapes_markup "a<b").1,
   (escapeXml_escapes_markup "a<b").2 '&' (by decide)⟩

/-! ## C5: tinted-icon memoization -/

theorem tintMapGet_append_new (m : TintMap) (k : String) (v : List ℕ)
    (h : m.find? (fun e => decide (e.1 = k)) = none) :
    tintMapGet (m ++ [(k, v)]) k = some v := by
  induction m with
  | nil => simp [tintMapGet]
  | cons e rest ih =>
    by_cases hp : e.1 = k
    · exfalso
      simp [List.find?_cons, hp] at h
    · rw [List.cons_append]
      have h' : rest.find? (fun x => decide (x.1 = k)) = none := by
        simpa [List.find?_cons, hp] using h
      simpa [tintMapGet, List.find?_cons, hp] using ih h'

theorem tintMapGet_replace (m : TintMap) (k : String) (v : List ℕ)
    (h : (m.find? (fun e => decide (e.1 = k))).isSome) :
    tintMapGet (m.map (fun e => if e.1 = k then (k, v) else e)) k = some v := by
  induction m with
  | nil => simp at h
  | cons e rest ih =>
    by_cases hp : e.1 = k
    · simp [tintMapGet, List.find?_cons, hp]
    · have h' : (rest.find? (fun x => decide (x.1 = k))).isSome := by
        simpa [List.find?_cons, hp] using h
      simpa [tintMapGet, List.find?_cons, hp] using ih h'

theorem tintMapGet_set_self (m : TintMap) (k : String) (v : List ℕ) :
    tintMapGet (tintMapSet m k v) k = some v := by
  unfold tintMapSet
  by_cases h : (m.find? (fun e => decide (e.1 = k))).isSome
  · rw [if_pos h]
    exact tintMapGet_replace m k v h
  · rw [if_neg h]
    exact tintMapGet_append_new m k v (Option.not_isSome_iff_eq_none.mp h)

/-- C5 (amended): `getTintedIcon` is memoized per (base asset, lower-cased
color hex) pair, for the two assets that have a cache map: a cached pair
is answered from the cache with no recomputation and the cache unchanged;
an uncached pair runs the pipeline and stores the result under the
lower-cased color; hence a repeated call with the same base and the same
lower-cased color — the requested size plays no role in the key — returns
the first call's bytes without recomputation.  (The unamended claim keyed
the cache by the full (base, size, color) triple; see the
counterexample.) -/
theorem getTintedIcon_memoized_per_base_and_color
    (compute : IconBase → ℕ → String → List ℕ) (cache : TintedCache)
    (size size' : ℕ) (color : String) :
    (∀ buf, tintMapGet cache.camp (jsToLowerStr color) = some buf →
        getTintedIcon compute cache .camp size color = (buf, cache, false)) ∧
    (∀ buf, tintMapGet cache.player (jsToLowerStr color) = some buf →
        getTintedIcon compute cache .player size color = (buf, cache, false)) ∧
    (tintMapGet cache.camp (jsToLowerStr color) = none →
        getTintedIcon compute cache .camp size color =
          (compute .camp size color,
           ⟨tintMapSet cache.camp (jsToLowerStr color)
              (compute .camp size color), cache.player⟩, true)) ∧
    (tintMapGet cache.player (jsToLowerStr color) = none →
        getTintedIcon compute cache .player size color =
          (compute .player size color,
           ⟨cache.camp, tintMapSet cache.player (jsToLowerStr color)
              (compute .player size color)⟩, true)) ∧
    (∀ color', jsToLowerStr color' = jsToLowerStr color →
        (getTintedIcon compute
            (getTintedIcon compute cache .camp size color).2.1 .camp size'
            color').1 =
          (getTintedIcon compute cache .camp size color).1 ∧
        (getTintedIcon compute
            (getTintedIcon compute cache .camp size color).2.1 .camp size'
            color').2.2 = false) := by
  refine ⟨?_, ?_, ?_, ?_, ?_⟩
  · intro buf h
    simp [getTintedIcon, h]
  · intro buf h
    simp [getTintedIcon, h]
  · intro h
    simp [getTintedIcon, h]
  · intro h
    simp [getTintedIcon, h]
  · intro color' hc
    rcases hg : tintMapGet cache.camp (jsToLowerStr color) with _ | buf
    · simp [getTintedIcon, hg, hc, tintMapGet_set_self]
    · simp [getTintedIcon, hg, hc]

/-- C5 witness: a concrete repeat call (same asset, same color up to
case, same size) is answered from the cache with the first call's
bytes. -/
theorem getTintedIcon_memoized_witness :
    (getTintedIcon (fun _ s _ => [s])
        (getTintedIcon (fun _ s _ => [s]) emptyTintedCache .camp 128
          "#FF0000").2.1 .camp 128 "#ff0000").1 =
      (getTintedIcon (fun _ s _ => [s]) emptyTintedCache .camp 128
        "#FF0000").1 ∧
    (getTintedIcon (fun _ s _ => [s])
        (getTintedIcon (fun _ s _ => [s]) emptyTintedCache .camp 128
          "#FF0000").2.1 .camp 128 "#ff0000").2.2 = false :=
  (getTintedIcon_memoized_per_base_and_color (fun _ s _ => [s])
    emptyTintedCache 128 128 "#FF0000").2.2.2.2 "#ff0000" (by decide)

/-- C5 counterexample: after caching the 128-pixel red camp icon, a call
for the 64-pixel red camp icon — a triple that differs in size from every
cached entry — is answered with the cached 128-pixel bytes and no
recomputation, because the cache key ignores the size. -/
theorem getTintedIcon_cache_key_ignores_size :
    (getTintedIcon (fun _ s _ => [s])
        (getTintedIcon (fun _ s _ => [s]) emptyTintedCache .camp 128
          "#ff0000").2.1 .camp 64 "#ff0000").2.2 = false ∧
    (getTintedIcon (fun _ s _ => [s])
        (getTintedIcon (fun _ s _ => [s]) emptyTintedCache .camp 128
          "#ff0000").2.1 .camp 64 "#ff0000").1 = [128] ∧
    ¬ (getTintedIcon (fun _ s _ => [s])
        (getTintedIcon (fun _ s _ => [s]) emptyTintedCache .camp 128
          "#ff0000").2.1 .camp 64 "#ff0000").1 = [64] := by
  decide

/-! ## C3: idempotent per-destination reconciliation -/

theorem ensureMessage_lastHash (env : DiscordEnv) (cfg : GuildCfg) :
    (ensureMessage env cfg).1.lastHash = cfg.lastHash ∧
    (ensureMessage env cfg).1.lastUpdatedAt = cfg.lastUpdatedAt := by
  unfold ensureMessage
  split <;> simp

theorem doUpdateForGuild_skip (env : DiscordEnv) (cfg : GuildCfg)
    (h now : String) (hg : env.guildOk = true) (hc : env.channelOk = true)
    (htruthy : jsTruthyStr cfg.lastHash = true) (heq : cfg.lastHash = some h) :
    doUpdateForGuild env cfg h false now =
      ⟨(ensureMessage env cfg).1, (ensureMessage env cfg).2, false, false⟩ := by
  have hens := ensureMessage_lastHash env cfg
  unfold doUpdateForGuild
  rw [if_neg (by simp [hg]), if_neg (by simp [hc]),
    if_pos ⟨by simp, by rw [hens.1]; exact htruthy, by rw [hens.1, heq]⟩]

theorem doUpdateForGuild_render (env : DiscordEnv) (cfg : GuildCfg)
    (h now : String) (hg : env.guildOk = true) (hc : env.channelOk = true)
    (hnot : ¬ (jsTruthyStr cfg.lastHash = true ∧ cfg.lastHash = some h)) :
    doUpdateForGuild env cfg h false now =
      ⟨withNewHash (ensureMessage env cfg).1 h now,
        (ensureMessage env cfg).2, true, true⟩ := by
  have hens := ensureMessage_lastHash env cfg
  unfold doUpdateForGuild
  rw [if_neg (by simp [hg]), if_neg (by simp [hc]),
    if_neg (fun hcontra => hnot ⟨hens.1 ▸ hcontra.2.1, hens.1 ▸ hcontra.2.2⟩)]

/-- C3: when the binding's recorded fingerprint equals the snapshot's and
the force flag is unset, `doUpdateForGuild` performs no render and no
edit and leaves `lastHash` and `lastUpdatedAt` unchanged; starting from a
stale binding on a resolvable destination, two successive runs on an
unchanged snapshot render exactly once (the second is a no-op); and with
the force flag set it always renders and edits regardless of the
fingerprint. -/
theorem doUpdateForGuild_change_detection (env : DiscordEnv) (cfg : GuildCfg)
    (h now now' : String) :
    ((jsTruthyStr cfg.lastHash = true → cfg.lastHash = some h →
      (doUpdateForGuild env cfg h false now).rendered = false ∧
      (doUpdateForGuild env cfg h false now).edited = false ∧
      (doUpdateForGuild env cfg h false now).cfg.lastHash = cfg.lastHash ∧
      (doUpdateForGuild env cfg h false now).cfg.lastUpdatedAt
        = cfg.lastUpdatedAt)) ∧
    (env.guildOk = true → env.channelOk = true → h ≠ "" →
      ¬ (jsTruthyStr cfg.lastHash = true ∧ cfg.lastHash = some h) →
      (doUpdateForGuild env cfg h false now).rendered = true ∧
      (doUpdateForGuild env cfg h false now).edited = true ∧
      (doUpdateForGuild env
          ((doUpdateForGuild env cfg h false now).cfg) h false now').rendered
        = false ∧
      (doUpdateForGuild env
          ((doUpdateForGuild env cfg h false now).cfg) h false now').edited
        = false) ∧
    (env.guildOk = true → env.channelOk = true →
      (doUpdateForGuild env cfg h true now).rendered = true ∧
      (doUpdateForGuild env cfg h true now).edited = true) := by
  refine ⟨?_, ?_, ?_⟩
  · intro htruthy heq
    by_cases hg : env.guildOk
    · by_cases hc : env.channelOk
      · have hens := ensureMessage_lastHash env cfg
        rw [doUpdateForGuild_skip env cfg h now hg hc htruthy heq]
        exact ⟨rfl, rfl, hens.1, hens.2⟩
      · unfold doUpdateForGuild
        rw [if_neg (by simp [hg]), if_pos (by simp [hc])]
        exact ⟨rfl, rfl, rfl, rfl⟩
    · unfold doUpdateForGuild
      rw [if_pos (by simp [hg])]
      exact ⟨rfl, rfl, rfl, rfl⟩
  · intro hg hc hne hnot
    rw [doUpdateForGuild_render env cfg h now hg hc hnot]
    have hskip := doUpdateForGuild_skip env
      (withNewHash (ensureMessage env cfg).1 h now) h now' hg hc
      (by simp [jsTruthyStr, withNewHash, hne]) (by simp [withNewHash])
    rw [hskip]
    exact ⟨rfl, rfl, rfl, rfl⟩
  · intro hg hc
    unfold doUpdateForGuild
    rw [if_neg (by simp [hg]), if_neg (by simp [hc]),
      if_neg (by simp)]
    exact ⟨rfl, rfl⟩

/-- C3 witness: with a resolvable destination and a fresh binding, the
first reconciliation renders and the immediate re-run on the same
snapshot does not. -/
theorem doUpdateForGuild_change_detection_witness :
    (doUpdateForGuild ⟨true, true, true, "m1"⟩
        ⟨some "c", some "m", none, none⟩ "h" false "t1").rendered = true ∧
    (doUpdateForGuild ⟨true, true, true, "m1"⟩
        ((doUpdateForGuild ⟨true, true, true, "m1"⟩
            ⟨some "c", some "m", none, none⟩ "h" false "t1").cfg)
        "h" false "t2").rendered = false :=
  ⟨((doUpdateForGuild_change_detection ⟨true, true, true, "m1"⟩
      ⟨some "c", some "m", none, none⟩ "h" "t1" "t2").2.1 rfl rfl
      (by decide) (by decide)).1,
   ((doUpdateForGuild_change_detection ⟨true, true, true, "m1"⟩
      ⟨some "c", some "m", none, none⟩ "h" "t1" "t2").2.1 rfl rfl
      (by decide) (by decide)).2.2.1⟩

/-! ## C6: a failed fetch aborts the whole cycle -/

/-- C6: a missing credential/endpoint configuration value, a non-success
HTTP status or a transport failure on either feed makes
`fetchSnapshotData` fail; and whenever it fails, the cycle aborts before
any per-destination reconciliation: no outcome is produced (no message
sent or edited, no render), every binding is left unchanged, and the
error is logged (`tick` is a total function — it returns instead of
crashing the process). -/
theorem tick_aborts_cycle_on_fetch_error (env : FetchEnv)
    (discord : String → DiscordEnv) (state : BotState) (rands : ℕ → ℕ)
    (fg : Option String) (now : String) :
    ((¬ jsTruthyStr env.adminPassword = true ∨
      ¬ jsTruthyStr env.playersUrl = true ∨
      (∃ e, env.playersResult = .error e) ∨
      ¬ jsTruthyStr env.paldefenderToken = true ∨
      ¬ jsTruthyStr env.guildsUrl = true ∨
      (∃ e, env.guildsResult = .error e)) →
      ∃ e, fetchSnapshotData env state.guildColors rands = .error e) ∧
    (∀ e, fetchSnapshotData env state.guildColors rands = .error e →
      (tick env discord state false rands fg now).outcomes = [] ∧
      (tick env discord state false rands fg now).state = state ∧
      (state.guilds ≠ [] →
        (tick env discord state false rands fg now).loggedTickError
          = true)) := by
  constructor
  · intro hdis
    by_cases h1 : jsTruthyStr env.adminPassword
    · by_cases h2 : jsTruthyStr env.playersUrl
      · rcases hp : env.playersResult with e | ps
        · exact ⟨e, by simp [fetchSnapshotData, fetchPlayers, h1, h2, hp]⟩
        · by_cases h3 : jsTruthyStr env.paldefenderToken
          · by_cases h4 : jsTruthyStr env.guildsUrl
            · rcases hg2 : env.guildsResult with e | gs
              · exact ⟨e, by
                  simp [fetchSnapshotData, fetchPlayers, fetchGuilds, h1, h2,
                    h3, h4, hp, hg2]⟩
              · exfalso
                rcases hdis with h | h | ⟨e, he⟩ | h | h | ⟨e, he⟩
                exacts [h h1, h h2, by simp [hp] at he, h h3, h h4,
                  by simp [hg2] at he]
            · exact ⟨"Missing env GUILDS_URL", by
                simp [fetchSnapshotData, fetchPlayers, fetchGuilds, h1, h2,
                  h3, h4, hp]⟩
          · exact ⟨"Missing env PALDEFENDER_TOKEN", by
              simp [fetchSnapshotData, fetchPlayers, fetchGuilds, h1, h2, h3,
                hp]⟩
      · exact ⟨"Missing env PLAYERS_URL", by
          simp [fetchSnapshotData, fetchPlayers, h1, h2]⟩
    · exact ⟨"Missing env ADMIN_PASSWORD", by simp [fetchSnapshotData,
        fetchPlayers, h1]⟩
  · intro e he
    unfold tick
    by_cases hempty : state.guilds.isEmpty
    · refine ⟨by simp [hempty], by simp [hempty], ?_⟩
      intro hne
      exact absurd (List.isEmpty_iff.mp hempty) hne
    · exact ⟨by simp [hempty, he], by simp [hempty, he],
        fun _ => by simp [hempty, he]⟩

/-- C6 witness: with `ADMIN_PASSWORD` unset and one binding attached, the
cycle aborts with no outcome, unchanged bindings, and a logged error. -/
theorem tick_aborts_cycle_on_fetch_error_witness :
    (tick ⟨none, some "u", some "tok", some "gu", .ok [], .ok []⟩
        (fun _ => ⟨true, true, true, "m"⟩)
        ⟨[("g", ⟨some "c", none, none, none⟩)], []⟩ false (fun _ => 0)
        none "t").outcomes = [] ∧
    (tick ⟨none, some "u", some "tok", some "gu", .ok [], .ok []⟩
        (fun _ => ⟨true, true, true, "m"⟩)
        ⟨[("g", ⟨some "c", none, none, none⟩)], []⟩ false (fun _ => 0)
        none "t").state = ⟨[("g", ⟨some "c", none, none, none⟩)], []⟩ ∧
    (tick ⟨none, some "u", some "tok", some "gu", .ok [], .ok []⟩
        (fun _ => ⟨true, true, true, "m"⟩)
        ⟨[("g", ⟨some "c", none, none, none⟩)], []⟩ false (fun _ => 0)
        none "t").loggedTickError = true := by
  have H := (tick_aborts_cycle_on_fetch_error
    ⟨none, some "u", some "tok", some "gu", .ok [], .ok []⟩
    (fun _ => ⟨true, true, true, "m"⟩)
    ⟨[("g", ⟨some "c", none, none, none⟩)], []⟩ (fun _ => 0) none "t").2
    "Missing env ADMIN_PASSWORD" rfl
  exact ⟨H.1, H.2.1, H.2.2 (by decide)⟩

/-! ## C4: stable, collision-avoiding color assignment -/

theorem lookupColor_mem {table : ColorTable} {g c : String}
    (h : lookupColor table g = some c) : ∃ e ∈ table, e.1 = g ∧ e.2 = c := by
  obtain ⟨e, he, hc⟩ := Option.map_eq_some'.mp h
  exact ⟨e, List.mem_of_find?_eq_some he,
    by simpa using List.find?_some he, hc⟩

theorem unused_palette_exists (table : ColorTable)
    (hlen : table.length < GUILD_COLORS.length) :
    GUILD_COLORS.filter
      (fun c => ¬ (table.map (fun e => e.2)).contains c) ≠ [] := by
  intro hfil
  have hsub2 : GUILD_COLORS ⊆ table.map (fun e => e.2) := by
    intro c hc
    have := List.filter_eq_nil_iff.mp hfil c hc
    simpa using this
  have hnd : GUILD_COLORS.Nodup := by decide
  have hle := (List.subperm_of_subset hnd hsub2).length_le
  rw [List.length_map] at hle
  omega

/-- C4: `pickColorForGuild` against one persisted table: an already
assigned (non-empty, hence truthy) color is returned unchanged with no
table mutation; a first-seen guild, while unused palette entries remain,
receives the first palette entry not currently in use in fixed palette
order and is appended to the table; well-formedness (distinct keys,
distinct palette colors) is preserved while the palette is not exhausted;
and in any well-formed table distinct guilds hold distinct colors. -/
theorem pickColorForGuild_contract (g : String) (table : ColorTable)
    (rand : ℕ) :
    (∀ c, lookupColor table g = some c → c ≠ "" →
      pickColorForGuild g table rand = (c, table)) ∧
    (lookupColor table g = none →
      ∀ c0 rest, GUILD_COLORS.filter
          (fun c => ¬ (table.map (fun e => e.2)).contains c) = c0 :: rest →
      pickColorForGuild g table rand = (c0, table ++ [(g, c0)])) ∧
    (WFColorTable table → table.length < GUILD_COLORS.length →
      WFColorTable (pickColorForGuild g table rand).2) ∧
    (WFColorTable table → ∀ g1 g2 c1 c2, g1 ≠ g2 →
      lookupColor table g1 = some c1 → lookupColor table g2 = some c2 →
      c1 ≠ c2) := by
  have hfreshNone : ∀ (h : lookupColor table g = none),
      pickColorForGuild g table rand =
        (match GUILD_COLORS.filter
            (fun c => ¬ (table.map (fun e => e.2)).contains c) with
         | [] => (GUILD_COLORS.get? (rand % GUILD_COLORS.length)).getD ""
         | c :: _ => c,
         table ++ [(g,
          match GUILD_COLORS.filter
              (fun c => ¬ (table.map (fun e => e.2)).contains c) with
          | [] => (GUILD_COLORS.get? (rand % GUILD_COLORS.length)).getD ""
          | c :: _ => c)]) := by
    intro h
    have hfind : table.find? (fun e => decide (e.1 = g)) = none := by
      have := Option.map_eq_none'.mp h
      simpa [lookupColor, jsObjGet] using this
    unfold pickColorForGuild
    rw [if_neg (by simp [h, jsTruthyStr])]
    simp only [jsObjSet, hfind, Option.isSome_none, Bool.false_eq_true,
      if_false]
  refine ⟨?_, ?_, ?_, ?_⟩
  · intro c hc hne
    unfold pickColorForGuild
    rw [if_pos (by simp [hc, jsTruthyStr, hne]), hc]
    rfl
  · intro h c0 rest hfil
    rw [hfreshNone h, hfil]
  · intro hwf hlen
    by_cases htruthy : jsTruthyStr (lookupColor table g) = true
    · unfold pickColorForGuild
      rw [if_pos htruthy]
      exact hwf
    · have hnone : lookupColor table g = none := by
        rcases hl : lookupColor table g with _ | c
        · rfl
        · exfalso
          rcases lookupColor_mem hl with ⟨e, hmem, hg, hc⟩
          by_cases hce : c = ""
          · subst hce
            have : ("" : String) ∈ GUILD_COLORS :=
              hwf.2.2 "" (by exact hc ▸ List.mem_map_of_mem _ hmem)
            exact absurd this (by decide)
          · exact htruthy (by simp [hl, jsTruthyStr, hce])
      rcases hfil : GUILD_COLORS.filter
          (fun c => ¬ (table.map (fun e => e.2)).contains c) with _ | ⟨c0, rest⟩
      · exact absurd hfil (unused_palette_exists table hlen)
      · rw [hfreshNone hnone, hfil]
        have hc0mem : c0 ∈ GUILD_COLORS ∧
            ¬ (table.map (fun e => e.2)).contains c0 = true := by
          have : c0 ∈ GUILD_COLORS.filter
              (fun c => ¬ (table.map (fun e => e.2)).contains c) := by
            rw [hfil]; exact List.mem_cons_self c0 rest
          have h2 := List.of_mem_filter this
          exact ⟨List.mem_of_mem_filter this, by simpa using h2⟩
        have hc0notin : c0 ∉ table.map (fun e => e.2) := by
          have := hc0mem.2
          simpa using this
        have hgnotin : g ∉ table.map (fun e => e.1) := by
          intro hmem
          rcases List.mem_map.mp hmem with ⟨e, hemem, heg⟩
          have hfind : table.find? (fun e => decide (e.1 = g)) = none := by
            have := Option.map_eq_none'.mp hnone
            simpa [lookupColor, jsObjGet] using this
          exact absurd (by simpa using heg)
            (by simpa using List.find?_eq_none.mp hfind e hemem)
        refine ⟨?_, ?_, ?_⟩
        · simp only [List.map_append, List.map_cons, List.map_nil,
            List.nodup_append]
          exact ⟨hwf.1, by simp, by simp [List.disjoint_singleton, hgnotin]⟩
        · simp only [List.map_append, List.map_cons, List.map_nil,
            List.nodup_append]
          exact ⟨hwf.2.1, by simp, by simp [List.disjoint_singleton, hc0notin]⟩
        · intro c hc
          rcases by simpa using hc with hcv | hcc
          · exact hwf.2.2 c (by simpa using hcv)
          · exact hcc ▸ hc0mem.1
  · intro hwf g1 g2 c1 c2 hne h1 h2 heq
    rcases lookupColor_mem h1 with ⟨e1, hm1, hg1, hc1⟩
    rcases lookupColor_mem h2 with ⟨e2, hm2, hg2, hc2⟩
    have : e1 = e2 := List.inj_on_of_nodup_map hwf.2.1 hm1 hm2
      (by rw [hc1, hc2, heq])
    exact hne (by rw [← hg1, ← hg2, this])

/-- C4 witness: the contract evaluated on a concrete table: stability for
an assigned guild, first-unused assignment for a fresh guild,
preservation of well-formedness, and distinct colors for the two
guilds. -/
theorem pickColorForGuild_contract_witness :
    pickColorForGuild "g1" [("g1", "#ff0000")] 0 =
      ("#ff0000", [("g1", "#ff0000")]) ∧
    pickColorForGuild "g2" [("g1", "#ff0000")] 0 =
      ("#3498DB", [("g1", "#ff0000")] ++ [("g2", "#3498DB")]) ∧
    WFColorTable (pickColorForGuild "g2" [("g1", "#ff0000")] 0).2 ∧
    ¬ ("#ff0000" : String) = "#3498DB" := by
  refine ⟨?_, ?_, ?_, ?_⟩
  · exact (pickColorForGuild_contract "g1" [("g1", "#ff0000")] 0).1
      "#ff0000" (by decide) (by decide)
  · exact (pickColorForGuild_contract "g2" [("g1", "#ff0000")] 0).2.1
      (by decide) "#3498DB"
      ["#2ECC71", "#F1C40F", "#9B59B6", "#E67E22", "#ff21e1", "#95A5A6",
       "#00ffff", "#FF5722", "#8BC34A", "#5e6f9e", "#004953"] (by decide)
  · exact (pickColorForGuild_contract "g2" [("g1", "#ff0000")] 0).2.2.1
      ⟨by decide, by decide, by decide⟩ (by decide)
  · exact (pickColorForGuild_contract "g1"
      [("g1", "#ff0000"), ("g2", "#3498DB")] 0).2.2.2
      ⟨by decide, by decide, by decide⟩ "g1" "g2" "#ff0000" "#3498DB"
      (by decide) (by decide) (by decide)

/-! ## C8: silent skipping of entities without usable coordinates -/

/-- C8: in the renderer's compositing loops (total functions — no error
is raised), a camp whose `map_x` or `map_y` is not a number contributes
no composite; every remaining camp contributes exactly one composite; a
player whose coerced coordinates are both zero contributes no icon and no
label; and every remaining player contributes exactly its icon and its
label (two composites). -/
theorem renderSnapshot_skips_missing_coords (sx sy : ℚ) :
    (∀ (c : Camp) (camps : List Camp) (table : ColorTable) (rands : ℕ → ℕ)
      (k : ℕ), c.map_x = none ∨ c.map_y = none →
      renderCampComposites sx sy (c :: camps) table rands k =
        renderCampComposites sx sy camps table rands k) ∧
    (∀ (camps : List Camp) (table : ColorTable) (rands : ℕ → ℕ) (k : ℕ),
      (renderCampComposites sx sy camps table rands k).1.length =
        (camps.filter (fun c => c.map_x.isSome && c.map_y.isSome)).length) ∧
    (∀ (p : PlayerJson) (players : List PlayerJson)
      (ptg : List (String × String)) (table : ColorTable) (rands : ℕ → ℕ)
      (k : ℕ), p.location_x.getD 0 = 0 → p.location_y.getD 0 = 0 →
      renderPlayerComposites sx sy (p :: players) ptg table rands k =
        renderPlayerComposites sx sy players ptg table rands k) ∧
    (∀ (players : List PlayerJson) (ptg : List (String × String))
      (table : ColorTable) (rands : ℕ → ℕ) (k : ℕ),
      (renderPlayerComposites sx sy players ptg table rands k).1.length =
        2 * (players.filter (fun p =>
          !(decide (p.location_x.getD 0 = 0) &&
            decide (p.location_y.getD 0 = 0)))).length) := by
  refine ⟨?_, ?_, ?_, ?_⟩
  · intro c camps table rands k h
    rcases hx : c.map_x with _ | mx
    · simp [renderCampComposites, hx]
    · rcases h with h | h
      · exact absurd hx (by simp [h])
      · simp [renderCampComposites, hx, h]
  · intro camps
    induction camps with
    | nil => intro table rands k; rfl
    | cons c rest ih =>
      intro table rands k
      rcases hx : c.map_x with _ | mx
      · simp [renderCampComposites, hx, List.filter_cons, ih]
      · rcases hy : c.map_y with _ | my
        · simp [renderCampComposites, hx, hy, List.filter_cons, ih]
        · simp [renderCampComposites, hx, hy, List.filter_cons, ih]
  · intro p players ptg table rands k hx hy
    simp [renderPlayerComposites, hx, hy]
  · intro players
    induction players with
    | nil => intro ptg table rands k; rfl
    | cons p rest ih =>
      intro ptg table rands k
      by_cases hcond : p.location_x.getD 0 = 0 ∧ p.location_y.getD 0 = 0
      · simp [renderPlayerComposites, hcond.1, hcond.2, List.filter_cons,
          hcond, ih]
      · simp only [renderPlayerComposites, List.filter_cons]
        rw [if_neg hcond]
        simp only [List.length_cons]
        have := ih ptg
        simp only [this]
        have hpred : (!(decide (p.location_x.getD 0 = 0) &&
            decide (p.location_y.getD 0 = 0))) = true := by
          by_cases ha : p.location_x.getD 0 = 0
          · by_cases hb : p.location_y.getD 0 = 0
            · exact absurd ⟨ha, hb⟩ hcond
            · simp [ha, hb]
          · simp [ha]
        rw [hpred]
        simp only [if_true, List.length_cons]
        omega

/-- C8 witness: a camp without a numeric `map_x` and a player with
zero coordinates are skipped on concrete inputs. -/
theorem renderSnapshot_skips_missing_coords_witness :
    renderCampComposites 1 1 [⟨"g", "G", some "c1", none, some 1, none, none⟩]
        [] (fun _ => 0) 0 =
      renderCampComposites 1 1 [] [] (fun _ => 0) 0 ∧
    renderPlayerComposites 1 1
        [⟨some "p", none, none, some "n", none, none, none⟩] [] []
        (fun _ => 0) 0 =
      renderPlayerComposites 1 1 [] [] [] (fun _ => 0) 0 :=
  ⟨(renderSnapshot_skips_missing_coords 1 1).1
      ⟨"g", "G", some "c1", none, some 1, none, none⟩ [] [] (fun _ => 0) 0
      (Or.inl rfl),
   (renderSnapshot_skips_missing_coords 1 1).2.2.1
      ⟨some "p", none, none, some "n", none, none, none⟩ [] [] []
      (fun _ => 0) 0 rfl rfl⟩

/-! ## C9: the legend panel rows -/

theorem insertLe_perm (le : α → α → Bool) (x : α) (l : List α) :
    (insertLe le x l).Perm (x :: l) := by
  induction l with
  | nil => exact List.Perm.refl [x]
  | cons y rest ih =>
    unfold insertLe
    by_cases h : le x y = true
    · rw [if_pos h]
    · rw [if_neg h]
      exact (ih.cons y).trans (List.Perm.swap x y rest)

theorem jsSortBy_perm (le : α → α → Bool) (l : List α) :
    (jsSortBy le l).Perm l := by
  induction l with
  | nil => exact List.Perm.refl []
  | cons x rest ih =>
    exact (insertLe_perm le x (jsSortBy le rest)).trans (ih.cons x)

theorem insertLe_pairwise (le : α → α → Bool)
    (htrans : ∀ a b c, le a b = true → le b c = true → le a c = true)
    (htotal : ∀ a b, le a b = true ∨ le b a = true) (x : α) (l : List α)
    (hl : l.Pairwise (fun a b => le a b = true)) :
    (insertLe le x l).Pairwise (fun a b => le a b = true) := by
  induction l with
  | nil => simp [insertLe]
  | cons y rest ih =>
    unfold insertLe
    obtain ⟨hy, hrest⟩ := List.pairwise_cons.mp hl
    by_cases h : le x y = true
    · rw [if_pos h]
      refine List.pairwise_cons.mpr ⟨?_, hl⟩
      intro b hb
      rcases List.mem_cons.mp hb with rfl | hb'
      · exact h
      · exact htrans x y b h (hy b hb')
    · rw [if_neg h]
      have hyx : le y x = true := (htotal x y).resolve_left h
      refine List.pairwise_cons.mpr ⟨?_, ih hrest⟩
      intro b hb
      rcases List.mem_cons.mp ((insertLe_perm le x rest).mem_iff.mp hb)
        with rfl | hb'
      · exact hyx
      · exact hy b hb'

theorem jsSortBy_pairwise (le : α → α → Bool)
    (htrans : ∀ a b c, le a b = true → le b c = true → le a c = true)
    (htotal : ∀ a b, le a b = true ∨ le b a = true) (l : List α) :
    (jsSortBy le l).Pairwise (fun a b => le a b = true) := by
  induction l with
  | nil => exact List.Pairwise.nil
  | cons x rest ih => exact insertLe_pairwise le htrans htotal x _ ih

theorem legendLe_trans : ∀ a b c : LegendRow,
    legendLe a b = true → legendLe b c = true → legendLe a c = true := by
  intro a b c hab hbc
  simp only [legendLe, Bool.or_eq_true, Bool.and_eq_true,
    decide_eq_true_eq] at hab hbc ⊢
  rcases hab with h1 | ⟨h1, h2⟩ <;> rcases hbc with h3 | ⟨h3, h4⟩
  · exact Or.inl (h3.trans h1)
  · exact Or.inl (h3 ▸ h1)
  · exact Or.inl (h1 ▸ h3)
  · exact Or.inr ⟨h1.trans h3, h2.trans h4⟩

theorem legendLe_total : ∀ a b : LegendRow,
    legendLe a b = true ∨ legendLe b a = true := by
  intro a b
  simp only [legendLe, Bool.or_eq_true, Bool.and_eq_true,
    decide_eq_true_eq]
  rcases Nat.lt_trichotomy a.campCount b.campCount with h | h | h
  · exact Or.inr (Or.inl h)
  · rcases le_total a.name b.name with hn | hn
    · exact Or.inl (Or.inr ⟨h, hn⟩)
    · exact Or.inr (Or.inr ⟨h.symm, hn⟩)
  · exact Or.inl (Or.inl h)

theorem buildLegendRows_proj (guildsJson : List (String × GuildJson)) :
    ∀ (table : ColorTable) (rands : ℕ → ℕ) (k : ℕ),
    (buildLegendRows guildsJson table rands k).1.map
        (fun r => (r.id, r.name, r.campCount)) =
      guildsJson.map (fun g => (g.1, g.2.name, g.2.camp_count.getD 0)) := by
  induction guildsJson with
  | nil => intro table rands k; rfl
  | cons g rest ih =>
    intro table rands k
    simp [buildLegendRows, ih]

/-- C9: whenever at least one guild has a camp, the legend row list holds
exactly the rows with a positive camp count (one per guild entry, as the
permutation of the filtered per-guild row list whose projection matches
the feed), every listed row has a positive count, and the rows are
ordered by descending camp count with ties broken by name in code-point
lexical order. -/
theorem legendGuilds_rows_sorted (guildsJson : List (String × GuildJson))
    (table : ColorTable) (rands : ℕ → ℕ)
    (_hcamp : ∃ g ∈ guildsJson, 0 < g.2.camp_count.getD 0) :
    ((fetchLegendGuilds guildsJson table rands).1.Perm
      ((buildLegendRows guildsJson table rands 0).1.filter
        (fun r => decide (0 < r.campCount)))) ∧
    ((buildLegendRows guildsJson table rands 0).1.map
        (fun r => (r.id, r.name, r.campCount)) =
      guildsJson.map (fun g => (g.1, g.2.name, g.2.camp_count.getD 0))) ∧
    ((fetchLegendGuilds guildsJson table rands).1.Pairwise
      (fun a b => b.campCount < a.campCount ∨
        (a.campCount = b.campCount ∧ a.name ≤ b.name))) ∧
    (∀ r ∈ (fetchLegendGuilds guildsJson table rands).1,
      0 < r.campCount) := by
  refine ⟨jsSortBy_perm legendLe _, buildLegendRows_proj guildsJson table
    rands 0, ?_, ?_⟩
  · have hp := jsSortBy_pairwise legendLe legendLe_trans legendLe_total
      ((buildLegendRows guildsJson table rands 0).1.filter
        (fun r => decide (0 < r.campCount)))
    refine hp.imp ?_
    intro a b hab
    simpa [legendLe] using hab
  · intro r hr
    have hmem := (jsSortBy_perm legendLe _).mem_iff.mp hr
    have := List.of_mem_filter hmem
    simpa using this

/-- C9 witness: the legend characterization on a concrete feed with one
two-camp guild and one camp-less guild. -/
theorem legendGuilds_rows_sorted_witness :
    ((fetchLegendGuilds [("g1", GuildJson.mk "Alpha" none [] (some 2) []),
        ("g2", GuildJson.mk "Beta" none [] (some 0) [])] []
        (fun _ => 0)).1.Perm
      ((buildLegendRows [("g1", GuildJson.mk "Alpha" none [] (some 2) []),
        ("g2", GuildJson.mk "Beta" none [] (some 0) [])] [] (fun _ => 0)
        0).1.filter
        (fun r => decide (0 < r.campCount)))) ∧
    ((buildLegendRows [("g1", GuildJson.mk "Alpha" none [] (some 2) []),
        ("g2", GuildJson.mk "Beta" none [] (some 0) [])] [] (fun _ => 0)
        0).1.map
        (fun r => (r.id, r.name, r.campCount)) =
      [("g1", GuildJson.mk "Alpha" none [] (some 2) []),
        ("g2", GuildJson.mk "Beta" none [] (some 0) [])].map
        (fun g => (g.1, g.2.name, g.2.camp_count.getD 0))) :=
  ⟨(legendGuilds_rows_sorted
      [("g1", GuildJson.mk "Alpha" none [] (some 2) []),
       ("g2", GuildJson.mk "Beta" none [] (some 0) [])] [] (fun _ => 0)
      (by decide)).1,
   (legendGuilds_rows_sorted
      [("g1", GuildJson.mk "Alpha" none [] (some 2) []),
       ("g2", GuildJson.mk "Beta" none [] (some 0) [])] [] (fun _ => 0)
      (by decide)).2.1⟩

/-! ## C2: fingerprint determinism -/

set_option maxRecDepth 10000 in
theorem sha256hex_fips_vector_one :
    sha256hex (strToBytes "abc") =
      "ba7816bf8f01cfea414140de5dae2223b00361a396177a9cb410ff61f20015ad" := by
  decide

set_option maxRecDepth 10000 in
theorem sha256hex_fips_vector_two :
    sha256hex
        (strToBytes "abcdbcdecdefdefgefghfghighijhijkijkljklmklmnlmnomnopnopq") =
      "248d6a61d20638b8e5c026930c3e6039a33ce45964ff2167f6ecedd419db06c1" := by
  decide

theorem charListLe_total : ∀ a b : List Char,
    charListLe a b = true ∨ charListLe b a = true
  | [], _ => Or.inl rfl
  | _ :: _, [] => Or.inr rfl
  | a :: as, b :: bs => by
    rcases lt_trichotomy a b with h | h | h
    · left
      simp [charListLe, h]
    · subst h
      rcases charListLe_total as bs with h' | h'
      · left
        simp [charListLe, lt_irrefl, h']
      · right
        simp [charListLe, lt_irrefl, h']
    · right
      simp [charListLe, h]

theorem charListLe_trans : ∀ a b c : List Char,
    charListLe a b = true → charListLe b c = true → charListLe a c = true
  | [], _, _, _, _ => rfl
  | _ :: _, [], _, hab, _ => by simp [charListLe] at hab
  | _ :: _, _ :: _, [], _, hbc => by simp [charListLe] at hbc
  | a :: as, b :: bs, c :: cs, hab, hbc => by
    by_cases h1 : a < b
    · by_cases h2 : b < c
      · simp [charListLe, lt_trans h1 h2]
      · by_cases h3 : c < b
        · simp [charListLe, h2, h3] at hbc
        · have hbc' : b = c := le_antisymm (not_lt.mp h3) (not_lt.mp h2)
          subst hbc'
          simp [charListLe, h1]
    · by_cases h1' : b < a
      · simp [charListLe, h1, h1'] at hab
      · have hba : a = b := le_antisymm (not_lt.mp h1') (not_lt.mp h1)
        subst hba
        have hab' : charListLe as bs = true := by
          simpa [charListLe, lt_irrefl] using hab
        by_cases h2 : a < c
        · simp [charListLe, h2]
        · by_cases h3 : c < a
          · simp [charListLe, h2, h3] at hbc
          · have hac : a = c := le_antisymm (not_lt.mp h3) (not_lt.mp h2)
            subst hac
            have hbc' : charListLe bs cs = true := by
              simpa [charListLe, lt_irrefl] using hbc
            simpa [charListLe, lt_irrefl] using
              charListLe_trans as bs cs hab' hbc'

theorem charListLe_antisymm : ∀ a b : List Char,
    charListLe a b = true → charListLe b a = true → a = b
  | [], [], _, _ => rfl
  | [], _ :: _, _, hba => by simp [charListLe] at hba
  | _ :: _, [], hab, _ => by simp [charListLe] at hab
  | a :: as, b :: bs, hab, hba => by
    by_cases h1 : a < b
    · simp [charListLe, h1, asymm h1] at hba
    · by_cases h2 : b < a
      · simp [charListLe, h1, h2] at hab
      · have hab' : charListLe as bs = true := by
          simpa [charListLe, h1, h2] using hab
        have hba' : charListLe bs as = true := by
          simpa [charListLe, h1, h2] using hba
        have heq : a = b := le_antisymm (not_lt.mp h2) (not_lt.mp h1)
        rw [heq, charListLe_antisymm as bs hab' hba']

theorem strLe_antisymm (a b : String) (h1 : strLe a b = true)
    (h2 : strLe b a = true) : a = b := by
  cases a
  cases b
  exact congrArg String.mk (charListLe_antisymm _ _ h1 h2)

theorem jsSortBy_eq_of_perm {α : Type} (le : α → α → Bool) (key : α → String)
    (htrans : ∀ a b c, le a b = true → le b c = true → le a c = true)
    (htotal : ∀ a b, le a b = true ∨ le b a = true)
    (hkey : ∀ a b, le a b = true → le b a = true → key a = key b)
    (l₁ l₂ : List α) (hperm : l₁.Perm l₂)
    (hnodup : (l₁.map key).Nodup) :
    jsSortBy le l₁ = jsSortBy le l₂ := by
  haveI : IsAntisymm α (fun a b => le a b = true ∧ key a ≠ key b) :=
    ⟨fun a b h1 h2 => absurd (hkey a b h1.1 h2.1) h1.2⟩
  have hperm' : (jsSortBy le l₁).Perm (jsSortBy le l₂) :=
    ((jsSortBy_perm le l₁).trans hperm).trans (jsSortBy_perm le l₂).symm
  have sorted : ∀ l : List α, (l.map key).Nodup →
      (jsSortBy le l).Sorted (fun a b => le a b = true ∧ key a ≠ key b) := by
    intro l hnd
    have hnd' : ((jsSortBy le l).map key).Nodup :=
      (((jsSortBy_perm le l).map key).nodup_iff).mpr hnd
    have hne := List.pairwise_map.mp hnd'
    exact (jsSortBy_pairwise le htrans htotal l).and hne
  have hnodup₂ : (l₂.map key).Nodup :=
    ((hperm.map key).nodup_iff).mp hnodup
  exact List.eq_of_perm_of_sorted hperm' (sorted l₁ hnodup) (sorted l₂ hnodup₂)

/-- C2 (amended): the fingerprint — the SHA-256 digest of the serialized
canonical snapshot, with players sorted by their `(id || name)` key and
camps by `id` — is invariant under permutation of each input list
provided the players' sort keys are pairwise distinct and the camps' ids
are pairwise distinct, and recomputing it on an unchanged snapshot
yields an identical hash.  (The unamended claim quantified over all
inputs; with duplicate sort keys the stable sort preserves the input
order of the tied records, so the hash can depend on input order — see
the counterexample.) -/
theorem fingerprint_perm_invariant (players1 players2 : List PlayerJson)
    (camps1 camps2 : List Camp)
    (hpp : players1.Perm players2) (hcp : camps1.Perm camps2)
    (hnp : ((players1.map toHashPlayer).map playerSortKey).Nodup)
    (hnc : ((camps1.map toHashCamp).map (fun c => c.id)).Nodup) :
    fingerprint players1 camps1 = fingerprint players2 camps2 ∧
    fingerprint players1 camps1 = fingerprint players1 camps1 := by
  refine ⟨?_, rfl⟩
  have hplayers := jsSortBy_eq_of_perm
    (fun a b => strLe (playerSortKey a) (playerSortKey b)) playerSortKey
    (fun a b c h1 h2 => charListLe_trans _ _ _ h1 h2)
    (fun a b => charListLe_total _ _)
    (fun a b h1 h2 => strLe_antisymm _ _ h1 h2)
    _ _ (hpp.map toHashPlayer) hnp
  have hcamps := jsSortBy_eq_of_perm
    (fun a b : HashCamp => strLe a.id b.id) (fun c => c.id)
    (fun a b c h1 h2 => charListLe_trans _ _ _ h1 h2)
    (fun a b => charListLe_total _ _)
    (fun a b h1 h2 => strLe_antisymm _ _ h1 h2)
    _ _ (hcp.map toHashCamp) hnc
  unfold fingerprint sha256 stableSnapshotForHash
  rw [hplayers, hcamps]

set_option maxRecDepth 10000 in
/-- C2 witness: two players with distinct ids hash identically in either
input order. -/
theorem fingerprint_perm_invariant_witness :
    fingerprint
        [⟨some "a", none, none, some "x", none, some 1, some 2⟩,
         ⟨some "b", none, none, some "y", none, some 3, some 4⟩] [] =
      fingerprint
        [⟨some "b", none, none, some "y", none, some 3, some 4⟩,
         ⟨some "a", none, none, some "x", none, some 1, some 2⟩] [] :=
  (fingerprint_perm_invariant
    [⟨some "a", none, none, some "x", none, some 1, some 2⟩,
     ⟨some "b", none, none, some "y", none, some 3, some 4⟩]
    [⟨some "b", none, none, some "y", none, some 3, some 4⟩,
     ⟨some "a", none, none, some "x", none, some 1, some 2⟩] [] []
    (by decide) (by decide) (by decide) (by decide)).1

set_option maxRecDepth 10000 in
/-- C2 counterexample: two players sharing the sort key `"a"` but
differing in name and coordinates: swapping their input order changes
the canonical order (the stable sort keeps tied records in input order)
and hence the fingerprint. -/
theorem fingerprint_not_perm_invariant_with_duplicate_keys :
    ¬ fingerprint
        [⟨some "a", none, none, some "x", none, some 1, some 2⟩,
         ⟨some "a", none, none, some "y", none, some 3, some 4⟩] [] =
      fingerprint
        [⟨some "a", none, none, some "y", none, some 3, some 4⟩,
         ⟨some "a", none, none, some "x", none, some 1, some 2⟩] [] := by
  decide

end Palmap
